import Mathlib

/-!
Verification of the moto dispatch and fallback routing layer
(`localstack/services/moto.py`) against its specification.

The module is shallowly embedded: each Python function becomes a Lean
definition over explicit data. Third-party collaborators (werkzeug's URL
matcher, moto's backend registry, the ASF framework's response parser and
request-context builder) are modelled at the interface the spec gives them,
either as explicit function parameters or as definitions whose doc comment
starts with `Modelled from the spec:`.
-/

namespace Moto

/-- Association-list lookup, modelling Python dict indexing / `.get` on the
string-keyed mappings this module manipulates. Returns the value of the first
entry with the given key. -/
def alget {β : Type} (l : List (String × β)) (k : String) : Option β :=
  (l.find? fun p => p.1 == k).map fun p => p.2

/-- Parsed response body values, as far as `call_moto` inspects them: either a
primitive (modelled as a string) or a nested one-level object such as the
`Error` mapping with its `Code` and `Message` string fields. -/
inductive JVal where
  | str : String → JVal
  | obj : List (String × String) → JVal
deriving DecidableEq, Repr

/-- A parsed body (`ServiceResponse`): a string-keyed mapping. -/
abbrev JObj := List (String × JVal)

/-- `response["Error"]`-style lookup on a parsed body. -/
def jget (o : JObj) (k : String) : Option JVal :=
  alget o k

/-- `response.pop(k, None)`: the body with every entry for key `k` removed
(Python dicts have unique keys, so at most one entry is removed). -/
def jpop (o : JObj) (k : String) : JObj :=
  o.filter fun p => p.1 != k

/-- moto's native structured error (`moto.core.exceptions.RESTError`), carrying
an error type tag, a message and an HTTP status code. -/
structure RESTError where
  error_type : String
  message : String
  code : Nat
deriving DecidableEq, Repr

/-- The caller-facing structured error (`CommonServiceException`). -/
structure CommonServiceException where
  code : String
  message : String
  status_code : Nat
deriving DecidableEq, Repr

/-- HTTP headers as an ordered multi-map, matching werkzeug's `Headers`. -/
abbrev Headers := List (String × String)

/-- The HTTP-shaped request carried by a `RequestContext`: path, full URL and
headers (the parts `dispatch_to_moto` reads and passes to the handler). -/
structure HttpRequest where
  path : String
  url : String
  headers : Headers
deriving DecidableEq, Repr

/-- A raw dispatch result from a moto handler: the `(status, headers, content)`
triple (`MotoResponse = HttpBackendResponse`). -/
structure MotoResponse where
  status : Nat
  headers : Headers
  content : String
deriving DecidableEq, Repr

/-- The `HttpResponse` shape `proxy_moto` returns:
`HttpResponse(response=content, status=status, headers=headers)`. -/
structure HttpResponse where
  response : String
  status : Nat
  headers : Headers
deriving DecidableEq, Repr

/-- The request context: target service, operation, region and the mutable
HTTP-shaped request. -/
structure RequestContext where
  service_name : String
  operation_name : String
  region : String
  request : HttpRequest
deriving DecidableEq, Repr

/-- A werkzeug `Rule`: a URL pattern with its endpoint (the moto handler) and
the `strict_slashes` flag. The pattern type `P` and endpoint type `H` are kept
abstract; concrete handlers are opaque callables. -/
structure Rule (P H : Type) where
  pattern : P
  strict_slashes : Bool
  endpoint : H
deriving DecidableEq, Repr

/-- A werkzeug `Map` for one service: the ordered list of its rules. -/
abbrev UrlMap (P H : Type) := List (Rule P H)

/-- Modelled from the spec: werkzeug's `Map.bind(host).match(path_info=path)`
(third-party, outside src/). Per the spec's resolver contract, the path is
matched against the table's patterns in registration order and the handler of
the first matching entry is returned; `none` models the `NoMatchingRoute`
failure. `pmatches` abstracts a single pattern's match function (static
segments, named variables, regex-constrained variables, trailing-slash
laxness). -/
def map_match {P H : Type} (pmatches : P → String → Bool) :
    UrlMap P H → String → Option H
  | [], _ => none
  | r :: rs, path =>
    if pmatches r.pattern path then some r.endpoint else map_match pmatches rs path

/-- `get_dispatcher(service, path)`: fetch the service's routing table (the
cached table is supplied by `tableOf`, modelling `get_moto_routing_table`);
if it holds exactly one rule, return that rule's endpoint without any
matching, otherwise match the path against the table. -/
def get_dispatcher {P H : Type} (pmatches : P → String → Bool)
    (tableOf : String → UrlMap P H) (service : String) (path : String) :
    Option H :=
  let url_map := tableOf service
  if h : url_map.length = 1 then
    some (url_map.get ⟨0, by omega⟩).endpoint
  else
    map_match pmatches url_map path

theorem map_match_first {P H : Type} (pmatches : P → String → Bool)
    (m : UrlMap P H) (path : String) (i : Nat) (hi : i < m.length)
    (hmatch : pmatches (m.get ⟨i, hi⟩).pattern path = true)
    (hearlier : ∀ j (hj : j < i),
      pmatches (m.get ⟨j, lt_trans hj hi⟩).pattern path = false) :
    map_match pmatches m path = some (m.get ⟨i, hi⟩).endpoint := by
  induction m generalizing i with
  | nil => exact absurd hi (Nat.not_lt_zero i)
  | cons r rs ih =>
    cases i with
    | zero =>
      simp only [List.get] at hmatch ⊢
      simp [map_match, hmatch]
    | succ n =>
      have hhead : pmatches r.pattern path = false :=
        hearlier 0 (Nat.succ_pos n)
      simp only [map_match, hhead, if_neg (Bool.false_ne_true)]
      have hn : n < rs.length := Nat.lt_of_succ_lt_succ hi
      simp only [List.get] at hmatch ⊢
      exact ih n hn hmatch (fun j hj => hearlier (j + 1) (Nat.succ_lt_succ hj))

/-- C4: for a service whose routing table has two or more entries, the resolver
returns the handler of the first entry, in registration order, whose pattern
matches the path: if entry `i` matches and no earlier entry does, the result is
entry `i`'s endpoint. -/
theorem get_dispatcher_first_match {P H : Type} (pmatches : P → String → Bool)
    (tableOf : String → UrlMap P H) (service : String) (path : String)
    (i : Nat) (hlen : 2 ≤ (tableOf service).length)
    (hi : i < (tableOf service).length)
    (hmatch : pmatches ((tableOf service).get ⟨i, hi⟩).pattern path = true)
    (hearlier : ∀ j (hj : j < i),
      pmatches ((tableOf service).get ⟨j, lt_trans hj hi⟩).pattern path = false) :
    get_dispatcher pmatches tableOf service path =
      some ((tableOf service).get ⟨i, hi⟩).endpoint := by
  have hne : (tableOf service).length ≠ 1 := by omega
  unfold get_dispatcher
  simp only [dif_neg hne]
  exact map_match_first pmatches (tableOf service) path i hi hmatch hearlier

/-- Witness for C4: a two-rule table where the path matches only the second
pattern resolves to the second handler. -/
theorem get_dispatcher_first_match_witness :
    get_dispatcher (fun p s => p == s)
      (fun _ => [⟨"/a", false, 10⟩, ⟨"/b", false, 20⟩]) "svc" "/b" =
      some 20 := by
  have h := get_dispatcher_first_match (fun p s => p == s)
    (fun _ => [⟨"/a", false, (10 : Nat)⟩, ⟨"/b", false, 20⟩]) "svc" "/b" 1
    (by decide) (by decide) (by decide)
    (by intro j hj; interval_cases j; rfl)
  exact h

/-- C5: for a service whose routing table has exactly one entry, the resolver
returns that entry's endpoint directly for every path and every pattern-match
function — no pattern matching is consulted. -/
theorem get_dispatcher_single {P H : Type} (pmatches : P → String → Bool)
    (tableOf : String → UrlMap P H) (service : String) (path : String)
    (h : (tableOf service).length = 1) :
    get_dispatcher pmatches tableOf service path =
      some ((tableOf service).get ⟨0, by omega⟩).endpoint := by
  unfold get_dispatcher
  simp only [dif_pos h]

/-- A moto dispatcher endpoint (`MotoDispatcher`): an opaque callable taking
the request, the full URL and the headers, and either returning a raw
`(status, headers, content)` triple or raising moto's native `RESTError`. -/
abbrev MotoDispatcher := HttpRequest → String → Headers → Except RESTError MotoResponse

/-- Outcome of `dispatch_to_moto`: resolver failure (`NoMatchingRoute`,
uncaught), the translated `CommonServiceException`, or a raw dispatch
result. The native `RESTError` does not appear: it never escapes. -/
inductive DispatchOutcome where
  | noRoute : DispatchOutcome
  | exn : CommonServiceException → DispatchOutcome
  | ok : MotoResponse → DispatchOutcome
deriving DecidableEq, Repr

/-- `request.headers.add("x-moto-account-id", get_aws_account_id())`: the
request as actually handed to the resolved handler, with the account-identity
header appended. `acc` is the account id supplied by the external
`get_aws_account_id`. -/
def moto_request (acc : String) (request : HttpRequest) : HttpRequest :=
  { request with headers := request.headers ++ [("x-moto-account-id", acc)] }

/-- `dispatch_to_moto(context)`: resolve the dispatcher for the context's
service and request path, append the account-id header, invoke the handler
with `(request, request.url, request.headers)`, and translate a raised
`RESTError e` into `CommonServiceException(e.error_type, e.message,
status_code=e.code)`. -/
def dispatch_to_moto {P : Type} (pmatches : P → String → Bool)
    (tableOf : String → UrlMap P MotoDispatcher) (acc : String)
    (context : RequestContext) : DispatchOutcome :=
  match get_dispatcher pmatches tableOf context.service_name context.request.path with
  | none => .noRoute
  | some dispatch =>
    let request := moto_request acc context.request
    match dispatch request request.url request.headers with
    | .ok r => .ok r
    | .error e => .exn ⟨e.error_type, e.message, e.code⟩

/-- C3: when the resolved handler raises moto's native `RESTError`, the
dispatch executor translates it into a `CommonServiceException` carrying the
same three fields (code = error_type, message = message, status = code); when
the handler returns a raw result, that result is passed through; so given a
resolved handler the executor's only outcomes are a raw result or a
`CommonServiceException` — the native exception type never propagates out. -/
theorem dispatch_to_moto_error_translation {P : Type}
    (pmatches : P → String → Bool)
    (tableOf : String → UrlMap P MotoDispatcher) (acc : String)
    (context : RequestContext) (d : MotoDispatcher)
    (hres : get_dispatcher pmatches tableOf context.service_name
      context.request.path = some d) :
    (∀ e, d (moto_request acc context.request)
        (moto_request acc context.request).url
        (moto_request acc context.request).headers = .error e →
      dispatch_to_moto pmatches tableOf acc context =
        .exn ⟨e.error_type, e.message, e.code⟩) ∧
    (∀ r, d (moto_request acc context.request)
        (moto_request acc context.request).url
        (moto_request acc context.request).headers = .ok r →
      dispatch_to_moto pmatches tableOf acc context = .ok r) ∧
    ((∃ r, dispatch_to_moto pmatches tableOf acc context = .ok r) ∨
     (∃ c, dispatch_to_moto pmatches tableOf acc context = .exn c)) := by
  unfold dispatch_to_moto
  rw [hres]
  refine ⟨fun e he => ?_, fun r hr => ?_, ?_⟩
  · simp only [he]
  · simp only [hr]
  · cases hd : d (moto_request acc context.request)
      (moto_request acc context.request).url
      (moto_request acc context.request).headers with
    | ok r => exact Or.inl ⟨r, by simp only [hd]⟩
    | error e => exact Or.inr ⟨⟨e.error_type, e.message, e.code⟩, by simp only [hd]⟩

/-- Witness for C3: a single-route service whose handler raises
`RESTError("BadThing", "it broke", 400)` dispatches to
`CommonServiceException("BadThing", "it broke", 400)`. -/
theorem dispatch_to_moto_error_translation_witness :
    dispatch_to_moto (fun p s => p == s)
      (fun _ => [⟨"/", false,
        fun _ _ _ => Except.error ⟨"BadThing", "it broke", 400⟩⟩])
      "000000000000"
      ⟨"sqs", "SendMessage", "us-east-1", ⟨"/", "http://h/", []⟩⟩ =
      .exn ⟨"BadThing", "it broke", 400⟩ := by
  have h := dispatch_to_moto_error_translation (fun p s => p == s)
    (fun _ => [⟨"/", false,
      (fun _ _ _ => Except.error ⟨"BadThing", "it broke", 400⟩ : MotoDispatcher)⟩])
    "000000000000"
    ⟨"sqs", "SendMessage", "us-east-1", ⟨"/", "http://h/", []⟩⟩
    (fun _ _ _ => Except.error ⟨"BadThing", "it broke", 400⟩) rfl
  exact h.1 ⟨"BadThing", "it broke", 400⟩ rfl

/-- Outcome of `proxy_moto`: the raw dispatch result repackaged as an
`HttpResponse`, or one of the dispatch failures. -/
inductive ProxyResult where
  | noRoute : ProxyResult
  | exn : CommonServiceException → ProxyResult
  | http : HttpResponse → ProxyResult
deriving DecidableEq, Repr

/-- `proxy_moto(context)`: dispatch to moto and return
`HttpResponse(response=content, status=status, headers=headers)` directly,
without parsing into a `ServiceResponse`. -/
def proxy_moto {P : Type} (pmatches : P → String → Bool)
    (tableOf : String → UrlMap P MotoDispatcher) (acc : String)
    (context : RequestContext) : ProxyResult :=
  match dispatch_to_moto pmatches tableOf acc context with
  | .noRoute => .noRoute
  | .exn c => .exn c
  | .ok r => .http ⟨r.content, r.status, r.headers⟩

/-- What the external `parse_response(context.operation, Response(content,
status, headers))` produces: a parsed body. The parser itself is wire-format
decoding owned by the ASF framework, so it is abstracted as a function from
operation name, status, headers and content to the parsed `JObj`. -/
abbrev ParseResponse := String → Nat → Headers → String → JObj

/-- Outcome of `call_moto`: besides the dispatch failures, the translation can
raise Python `KeyError` (on `response["Error"]` when the key is absent), fail
on a non-mapping `Error` value (`.get` on a non-dict), raise the translated
`CommonServiceException`, or return the structured body. -/
inductive CallMotoResult where
  | noRoute : CallMotoResult
  | keyError : String → CallMotoResult
  | attrError : CallMotoResult
  | exn : CommonServiceException → CallMotoResult
  | ok : JObj → CallMotoResult
deriving DecidableEq, Repr

/-- `call_moto(context, include_response_metadata)`: dispatch to moto, parse
the raw result, and translate: on status ≥ 301 look up `response["Error"]`
(a `KeyError` if absent) and raise `CommonServiceException` with
`error.get("Code", "UnknownError")`, the raw status, and
`error.get("Message", "")`; otherwise return the parsed body, with
`ResponseMetadata` popped unless `include_response_metadata` is set. -/
def call_moto {P : Type} (pmatches : P → String → Bool)
    (tableOf : String → UrlMap P MotoDispatcher) (parse : ParseResponse)
    (acc : String) (context : RequestContext)
    (include_response_metadata : Bool) : CallMotoResult :=
  match dispatch_to_moto pmatches tableOf acc context with
  | .noRoute => .noRoute
  | .exn c => .exn c
  | .ok r =>
    let response := parse context.operation_name r.status r.headers r.content
    if 301 ≤ r.status then
      match jget response "Error" with
      | none => .keyError "Error"
      | some (.str _) => .attrError
      | some (.obj error) =>
        .exn ⟨(alget error "Code").getD "UnknownError",
              (alget error "Message").getD "", r.status⟩
    else
      if !include_response_metadata then .ok (jpop response "ResponseMetadata")
      else .ok response

/-- C2: when the raw dispatch result has status ≥ 301 and the parsed body
carries an `Error` mapping, `call_moto` raises a `CommonServiceException`
whose code is `Error.Code` (defaulting to `"UnknownError"` when `Code` is
absent), whose message is `Error.Message` (defaulting to `""`), and whose
status code is the raw status; no structured response is returned. (The case
of a body with no `Error` key at all is settled separately: there the lookup
itself fails.) -/
theorem call_moto_error_translation {P : Type} (pmatches : P → String → Bool)
    (tableOf : String → UrlMap P MotoDispatcher) (parse : ParseResponse)
    (acc : String) (context : RequestContext) (b : Bool) (r : MotoResponse)
    (error : List (String × String))
    (hdisp : dispatch_to_moto pmatches tableOf acc context = .ok r)
    (hstatus : 301 ≤ r.status)
    (herr : jget (parse context.operation_name r.status r.headers r.content)
      "Error" = some (.obj error)) :
    call_moto pmatches tableOf parse acc context b =
      .exn ⟨(alget error "Code").getD "UnknownError",
            (alget error "Message").getD "", r.status⟩ ∧
    ∀ o, call_moto pmatches tableOf parse acc context b ≠ .ok o := by
  have hmain : call_moto pmatches tableOf parse acc context b =
      .exn ⟨(alget error "Code").getD "UnknownError",
            (alget error "Message").getD "", r.status⟩ := by
    unfold call_moto
    rw [hdisp]
    simp only [if_pos hstatus, herr]
  exact ⟨hmain, fun o h => by rw [hmain] at h; exact CallMotoResult.noConfusion h⟩

/-- Witness for C2: a 400 response whose body parses to
`{"Error": {"Code": "Foo", "Message": "bar"}}` raises
`CommonServiceException("Foo", "bar", 400)`. -/
theorem call_moto_error_translation_witness :
    call_moto (fun p s => p == s)
      (fun _ => [⟨"/", false,
        fun _ _ _ => Except.ok ⟨400, [], "raw"⟩⟩])
      (fun _ _ _ _ => [("Error", .obj [("Code", "Foo"), ("Message", "bar")])])
      "000000000000"
      ⟨"sqs", "SendMessage", "us-east-1", ⟨"/", "http://h/", []⟩⟩ false =
      .exn ⟨"Foo", "bar", 400⟩ := by
  have h := call_moto_error_translation (fun p s => p == s)
    (fun _ => [⟨"/", false,
      (fun _ _ _ => Except.ok ⟨400, [], "raw"⟩ : MotoDispatcher)⟩])
    (fun _ _ _ _ => [("Error", .obj [("Code", "Foo"), ("Message", "bar")])])
    "000000000000"
    ⟨"sqs", "SendMessage", "us-east-1", ⟨"/", "http://h/", []⟩⟩ false
    ⟨400, [], "raw"⟩ [("Code", "Foo"), ("Message", "bar")]
    rfl (by decide) rfl
  exact h.1

/-- C10: when the raw dispatch result has status ≥ 301 but the parsed body has
no `Error` key at all, `call_moto` does not raise a `CommonServiceException`:
the unconditional `response["Error"]` lookup fails first (a `KeyError`), so
the `Code`/`Message` defaulting only ever applies when the `Error` mapping is
present. -/
theorem call_moto_missing_error_key {P : Type} (pmatches : P → String → Bool)
    (tableOf : String → UrlMap P MotoDispatcher) (parse : ParseResponse)
    (acc : String) (context : RequestContext) (b : Bool) (r : MotoResponse)
    (hdisp : dispatch_to_moto pmatches tableOf acc context = .ok r)
    (hstatus : 301 ≤ r.status)
    (herr : jget (parse context.operation_name r.status r.headers r.content)
      "Error" = none) :
    call_moto pmatches tableOf parse acc context b = .keyError "Error" ∧
    ∀ c, call_moto pmatches tableOf parse acc context b ≠ .exn c := by
  have hmain : call_moto pmatches tableOf parse acc context b =
      .keyError "Error" := by
    unfold call_moto
    rw [hdisp]
    simp only [if_pos hstatus, herr]
  exact ⟨hmain, fun c h => by rw [hmain] at h; exact CallMotoResult.noConfusion h⟩

/-- Witness for C10: a 400 response whose parsed body is `{"foo": "1"}`
(no `Error` key) produces the `KeyError`, not a `CommonServiceException`. -/
theorem call_moto_missing_error_key_witness :
    call_moto (fun p s => p == s)
      (fun _ => [⟨"/", false,
        fun _ _ _ => Except.ok ⟨400, [], "raw"⟩⟩])
      (fun _ _ _ _ => [("foo", .str "1")])
      "000000000000"
      ⟨"sqs", "SendMessage", "us-east-1", ⟨"/", "http://h/", []⟩⟩ false =
      .keyError "Error" := by
  have h := call_moto_missing_error_key (fun p s => p == s)
    (fun _ => [⟨"/", false,
      (fun _ _ _ => Except.ok ⟨400, [], "raw"⟩ : MotoDispatcher)⟩])
    (fun _ _ _ _ => [("foo", .str "1")])
    "000000000000"
    ⟨"sqs", "SendMessage", "us-east-1", ⟨"/", "http://h/", []⟩⟩ false
    ⟨400, [], "raw"⟩ rfl (by decide) rfl
  exact h.1

/-- Keys other than the popped one keep their value: `jpop` only removes
`ResponseMetadata` entries. -/
theorem jget_jpop_ne (o : JObj) (k k' : String) (hk : k' ≠ k) :
    jget (jpop o k) k' = jget o k' := by
  unfold jget jpop alget
  induction o with
  | nil => rfl
  | cons p ps ih =>
    by_cases hp : p.1 = k
    · have hfilter : (p.1 != k) = false := by simp [hp]
      have hfind : (p.1 == k') = false := by
        simp only [beq_eq_false_iff_ne]
        rw [hp]
        exact fun h => hk h.symm
      simp only [List.filter, hfilter, List.find?, hfind]
      exact ih
    · have hfilter : (p.1 != k) = true := by simp [hp]
      simp only [List.filter, hfilter, List.find?]
      cases hfind : p.1 == k' with
      | true => rfl
      | false => exact ih

/-- C7: on a raw result with status 200, `call_moto` returns the full parsed
body when `include_response_metadata` is true, and the parsed body with
exactly the `ResponseMetadata` field removed when it is false: every other
key's value is unchanged. -/
theorem call_moto_success_metadata {P : Type} (pmatches : P → String → Bool)
    (tableOf : String → UrlMap P MotoDispatcher) (parse : ParseResponse)
    (acc : String) (context : RequestContext) (r : MotoResponse)
    (hdisp : dispatch_to_moto pmatches tableOf acc context = .ok r)
    (hstatus : r.status = 200) :
    call_moto pmatches tableOf parse acc context true =
      .ok (parse context.operation_name r.status r.headers r.content) ∧
    call_moto pmatches tableOf parse acc context false =
      .ok (jpop (parse context.operation_name r.status r.headers r.content)
        "ResponseMetadata") ∧
    jget (jpop (parse context.operation_name r.status r.headers r.content)
      "ResponseMetadata") "ResponseMetadata" = none ∧
    ∀ k, k ≠ "ResponseMetadata" →
      jget (jpop (parse context.operation_name r.status r.headers r.content)
        "ResponseMetadata") k =
      jget (parse context.operation_name r.status r.headers r.content) k := by
  have hlt : ¬ 301 ≤ r.status := by omega
  refine ⟨?_, ?_, ?_, fun k hk => jget_jpop_ne _ _ k hk⟩
  · unfold call_moto
    rw [hdisp]
    simp only [if_neg hlt, Bool.not_true]
    rfl
  · unfold call_moto
    rw [hdisp]
    simp only [if_neg hlt, Bool.not_false]
    rfl
  · unfold jget jpop alget
    generalize parse context.operation_name r.status r.headers r.content = o
    induction o with
    | nil => rfl
    | cons p ps ih =>
      cases hp : (p.1 != "ResponseMetadata") with
      | false => simp only [List.filter, hp]; exact ih
      | true =>
        have : (p.1 == "ResponseMetadata") = false := by
          cases h : p.1 == "ResponseMetadata" with
          | false => rfl
          | true => rw [bne, h] at hp; exact absurd hp (by decide)
        simp only [List.filter, hp, List.find?, this]
        exact ih

/-- Witness for C7: a 200 response parsing to
`{"Value": "42", "ResponseMetadata": {"RequestId": "x"}}` is returned whole
with metadata requested, and as `{"Value": "42"}` without. -/
theorem call_moto_success_metadata_witness :
    call_moto (fun p s => p == s)
      (fun _ => [⟨"/", false,
        fun _ _ _ => Except.ok ⟨200, [], "raw"⟩⟩])
      (fun _ _ _ _ => [("Value", .str "42"),
        ("ResponseMetadata", .obj [("RequestId", "x")])])
      "000000000000"
      ⟨"sqs", "SendMessage", "us-east-1", ⟨"/", "http://h/", []⟩⟩ true =
      .ok [("Value", .str "42"),
        ("ResponseMetadata", .obj [("RequestId", "x")])] ∧
    call_moto (fun p s => p == s)
      (fun _ => [⟨"/", false,
        fun _ _ _ => Except.ok ⟨200, [], "raw"⟩⟩])
      (fun _ _ _ _ => [("Value", .str "42"),
        ("ResponseMetadata", .obj [("RequestId", "x")])])
      "000000000000"
      ⟨"sqs", "SendMessage", "us-east-1", ⟨"/", "http://h/", []⟩⟩ false =
      .ok [("Value", .str "42")] := by
  have h := call_moto_success_metadata (fun p s => p == s)
    (fun _ => [⟨"/", false,
      (fun _ _ _ => Except.ok ⟨200, [], "raw"⟩ : MotoDispatcher)⟩])
    (fun _ _ _ _ => [("Value", .str "42"),
      ("ResponseMetadata", .obj [("RequestId", "x")])])
    "000000000000"
    ⟨"sqs", "SendMessage", "us-east-1", ⟨"/", "http://h/", []⟩⟩
    ⟨200, [], "raw"⟩ rfl rfl
  exact ⟨h.1, h.2.1⟩

/-- What one call to a provider's operation method can do: return a structured
result, raise the framework's `NotImplementedError` signal, or raise any other
exception (which must propagate unchanged). -/
inductive ProviderOutcome (β : Type) where
  | ok : β → ProviderOutcome β
  | notImplementedSignal : ProviderOutcome β
  | otherError : String → ProviderOutcome β
deriving DecidableEq, Repr

/-- What a fallback-wrapped method can do: the provider's structured result,
the fallthrough's raw HTTP-shaped result, or the provider's propagated
exception. -/
inductive WrappedOutcome (β : Type) where
  | structured : β → WrappedOutcome β
  | fallthrough : ProxyResult → WrappedOutcome β
  | otherError : String → WrappedOutcome β
deriving DecidableEq, Repr

/-- Modelled from the spec:
`localstack.aws.forwarder.ForwardingFallbackDispatcher` (imported here but not
under src/). For every operation method of the provider it produces a method
of identical signature that first invokes the original method; if that raises
the framework's "operation not implemented" signal it instead invokes the
fallthrough dispatch; any other exception propagates unchanged. A provider is
modelled as a function from the operation call (its request context) to an
outcome, and the wrapped table as the same shape of function. -/
def ForwardingFallbackDispatcher {β : Type}
    (provider : RequestContext → ProviderOutcome β)
    (fallthrough : RequestContext → ProxyResult) :
    RequestContext → WrappedOutcome β :=
  fun context =>
    match provider context with
    | .ok b => .structured b
    | .notImplementedSignal => .fallthrough (fallthrough context)
    | .otherError s => .otherError s

/-- `MotoFallbackDispatcher(provider)`: wrap the provider with the forwarding
fallback dispatcher, using `proxy_moto` as the fallthrough. -/
def MotoFallbackDispatcher {P β : Type} (pmatches : P → String → Bool)
    (tableOf : String → UrlMap P MotoDispatcher) (acc : String)
    (provider : RequestContext → ProviderOutcome β) :
    RequestContext → WrappedOutcome β :=
  ForwardingFallbackDispatcher provider
    (fun context => proxy_moto pmatches tableOf acc context)

/-- C1: a fallback-wrapped provider is transparent. When the provider's method
for an operation raises the "not implemented" signal, the wrapped call returns
exactly `proxy_moto`'s pass-through result; in particular, when the raw
dispatch yields `(status, headers, content)`, the wrapped call returns that
HTTP-shaped triple unchanged. When the provider implements the operation, the
wrapped call returns the provider's own result. -/
theorem moto_fallback_dispatcher_transparent {P β : Type}
    (pmatches : P → String → Bool)
    (tableOf : String → UrlMap P MotoDispatcher) (acc : String)
    (provider : RequestContext → ProviderOutcome β)
    (context : RequestContext) :
    (provider context = .notImplementedSignal →
      MotoFallbackDispatcher pmatches tableOf acc provider context =
        .fallthrough (proxy_moto pmatches tableOf acc context) ∧
      ∀ r, dispatch_to_moto pmatches tableOf acc context = .ok r →
        MotoFallbackDispatcher pmatches tableOf acc provider context =
          .fallthrough (.http ⟨r.content, r.status, r.headers⟩)) ∧
    (∀ b, provider context = .ok b →
      MotoFallbackDispatcher pmatches tableOf acc provider context =
        .structured b) := by
  constructor
  · intro hni
    constructor
    · unfold MotoFallbackDispatcher ForwardingFallbackDispatcher
      rw [hni]
    · intro r hr
      have hfall : MotoFallbackDispatcher pmatches tableOf acc provider context =
          .fallthrough (proxy_moto pmatches tableOf acc context) := by
        unfold MotoFallbackDispatcher ForwardingFallbackDispatcher
        rw [hni]
      rw [hfall]
      unfold proxy_moto
      rw [hr]
  · intro b hb
    unfold MotoFallbackDispatcher ForwardingFallbackDispatcher
    rw [hb]

/-- Witness for C1: a provider that does not implement the operation yields
moto's raw result through the wrapper, and one that does keeps its own
result. -/
theorem moto_fallback_dispatcher_transparent_witness :
    MotoFallbackDispatcher (fun p s => p == s)
      (fun _ => [⟨"/", false,
        fun _ _ _ => Except.ok ⟨200, [("a", "b")], "payload"⟩⟩])
      "000000000000" (fun _ => (.notImplementedSignal : ProviderOutcome JObj))
      ⟨"sqs", "SendMessage", "us-east-1", ⟨"/", "http://h/", []⟩⟩ =
      .fallthrough (.http ⟨"payload", 200, [("a", "b")]⟩) ∧
    MotoFallbackDispatcher (fun p s => p == s)
      (fun _ => [⟨"/", false,
        fun _ _ _ => Except.ok ⟨200, [("a", "b")], "payload"⟩⟩])
      "000000000000" (fun _ => (.ok [("Done", JVal.str "yes")] : ProviderOutcome JObj))
      ⟨"sqs", "SendMessage", "us-east-1", ⟨"/", "http://h/", []⟩⟩ =
      .structured [("Done", JVal.str "yes")] := by
  have h1 := moto_fallback_dispatcher_transparent (fun p s => p == s)
    (fun _ => [⟨"/", false,
      (fun _ _ _ => Except.ok ⟨200, [("a", "b")], "payload"⟩ : MotoDispatcher)⟩])
    "000000000000" (fun _ => (.notImplementedSignal : ProviderOutcome JObj))
    ⟨"sqs", "SendMessage", "us-east-1", ⟨"/", "http://h/", []⟩⟩
  have h2 := moto_fallback_dispatcher_transparent (fun p s => p == s)
    (fun _ => [⟨"/", false,
      (fun _ _ _ => Except.ok ⟨200, [("a", "b")], "payload"⟩ : MotoDispatcher)⟩])
    "000000000000" (fun _ => (.ok [("Done", JVal.str "yes")] : ProviderOutcome JObj))
    ⟨"sqs", "SendMessage", "us-east-1", ⟨"/", "http://h/", []⟩⟩
  exact ⟨(h1.1 rfl).2 ⟨200, [("a", "b")], "payload"⟩ rfl,
         h2.2 [("Done", JVal.str "yes")] rfl⟩

/-- Modelled from the spec: `create_aws_request_context(service_name, action,
parameters, region)` (declared in `localstack.aws.forwarder` but not under
src/) serializes the service-request parameters into a fresh local request
context. It is abstracted as a function parameter of that signature. -/
abbrev CreateAwsRequestContext := String → String → JObj → String → RequestContext

/-- The local context built by `call_moto_with_request`: the freshly created
context with the original request's headers merged in
(`local_context.request.headers.extend(context.request.headers)`, which
appends the original entries after the new ones). -/
def merged_local_context (create_ctx : CreateAwsRequestContext)
    (context : RequestContext) (service_request : JObj) : RequestContext :=
  let local_context := create_ctx context.service_name context.operation_name
    service_request context.region
  { local_context with request :=
    { local_context.request with headers :=
        local_context.request.headers ++ context.request.headers } }

/-- `call_moto_with_request(context, service_request)`: serialize the new
parameters into a local context, extend its headers with the original
request's headers, and call `call_moto` on it (with the default
`include_response_metadata=False`). -/
def call_moto_with_request {P : Type} (pmatches : P → String → Bool)
    (tableOf : String → UrlMap P MotoDispatcher) (parse : ParseResponse)
    (acc : String) (create_ctx : CreateAwsRequestContext)
    (context : RequestContext) (service_request : JObj) : CallMotoResult :=
  call_moto pmatches tableOf parse acc
    (merged_local_context create_ctx context service_request) false

/-- C8: `call_moto_with_request` performs the full call on the rebuilt local
context, and every header of the original context's request is present on the
request actually dispatched to moto (the merge appends all original entries,
so none is lost, and the account-id header append preserves them too). -/
theorem call_moto_with_request_preserves_headers {P : Type}
    (pmatches : P → String → Bool)
    (tableOf : String → UrlMap P MotoDispatcher) (parse : ParseResponse)
    (acc : String) (create_ctx : CreateAwsRequestContext)
    (context : RequestContext) (service_request : JObj)
    (hdr : String × String) (hmem : hdr ∈ context.request.headers) :
    call_moto_with_request pmatches tableOf parse acc create_ctx context
      service_request =
      call_moto pmatches tableOf parse acc
        (merged_local_context create_ctx context service_request) false ∧
    hdr ∈ (merged_local_context create_ctx context
      service_request).request.headers ∧
    hdr ∈ (moto_request acc (merged_local_context create_ctx context
      service_request).request).headers := by
  refine ⟨rfl, ?_, ?_⟩
  · unfold merged_local_context
    exact List.mem_append_right _ hmem
  · unfold moto_request merged_local_context
    exact List.mem_append_left _ (List.mem_append_right _ hmem)

/-- Witness for C8: an original header `("x-orig", "1")` not set by the new
request survives onto the merged and dispatched request. -/
theorem call_moto_with_request_preserves_headers_witness :
    ("x-orig", "1") ∈ (moto_request "000000000000"
      (merged_local_context
        (fun _ _ _ _ => ⟨"sqs", "SendMessage", "us-east-1",
          ⟨"/", "http://h/", [("content-type", "json")]⟩⟩)
        ⟨"sqs", "SendMessage", "us-east-1",
          ⟨"/old", "http://h/old", [("x-orig", "1")]⟩⟩
        [("QueueName", JVal.str "q")]).request).headers := by
  have h := call_moto_with_request_preserves_headers
    (fun (p : String) s => p == s) (fun _ => []) (fun _ _ _ _ => [])
    "000000000000"
    (fun _ _ _ _ => ⟨"sqs", "SendMessage", "us-east-1",
      ⟨"/", "http://h/", [("content-type", "json")]⟩⟩)
    ⟨"sqs", "SendMessage", "us-east-1",
      ⟨"/old", "http://h/old", [("x-orig", "1")]⟩⟩
    [("QueueName", JVal.str "q")]
    ("x-orig", "1") (by simp)
  exact h.2.2

/-- `DEFAULT_AWS_ACCOUNT_ID` from `localstack.constants` (not under src/):
the designated default account marker. -/
def DEFAULT_AWS_ACCOUNT_ID : String := "000000000000"

/-- A moto backend instance, exposing its `(URL path pattern → handler)`
registrations as `flask_paths`. -/
structure MotoBackend (H : Type) where
  flask_paths : List (String × H)
deriving DecidableEq, Repr

/-- What `moto_backends.get_backend(service)` hands back for a known service:
either a `BackendDict` keyed by account and then region, or a flat mapping
holding the single instance under the `"global"` key. -/
inductive BackendLookup (H : Type) where
  | backendDict : List (String × List (String × MotoBackend H)) → BackendLookup H
  | flat : List (String × MotoBackend H) → BackendLookup H
deriving DecidableEq, Repr

/-- The backend-instance selection of `load_moto_routing_table`: on a
`BackendDict`, take the default account's `"us-east-1"` instance if that
region is present, else its `"global"` instance; on a flat mapping, take the
`"global"` instance directly. `none` models the lookup failures that surface
as configuration errors. -/
def select_backend {H : Type} : BackendLookup H → Option (MotoBackend H)
  | .backendDict bd =>
    match alget bd DEFAULT_AWS_ACCOUNT_ID with
    | none => none
    | some regions =>
      match alget regions "us-east-1" with
      | some backend => some backend
      | none => alget regions "global"
  | .flat d => alget d "global"

/-- `load_moto_routing_table(service)`: select one concrete backend instance
and turn each of its `flask_paths` registrations into a werkzeug rule with
`strict_slashes` disabled, preserving registration order. -/
def load_moto_routing_table {H : Type} (lookup : BackendLookup H) :
    Option (UrlMap String H) :=
  (select_backend lookup).map fun backend =>
    backend.flask_paths.map fun ph => ⟨ph.1, false, ph.2⟩

/-- C9: the builder selects exactly one backend instance with the preference
order (default account, `"us-east-1"`) then (default account, `"global"`) on a
two-level structure, and the single `"global"` instance on a flat structure;
and the resulting table has one rule per `flask_paths` registration, in order,
with the same pattern and handler and `strict_slashes` disabled. -/
theorem load_moto_routing_table_selection {H : Type} (lookup : BackendLookup H)
    (b : MotoBackend H) :
    (∀ bd regions, lookup = .backendDict bd →
      alget bd DEFAULT_AWS_ACCOUNT_ID = some regions →
      alget regions "us-east-1" = some b →
      select_backend lookup = some b) ∧
    (∀ bd regions, lookup = .backendDict bd →
      alget bd DEFAULT_AWS_ACCOUNT_ID = some regions →
      alget regions "us-east-1" = none →
      alget regions "global" = some b →
      select_backend lookup = some b) ∧
    (∀ d, lookup = .flat d → alget d "global" = some b →
      select_backend lookup = some b) ∧
    (select_backend lookup = some b →
      ∃ table, load_moto_routing_table lookup = some table ∧
        table.map (fun r => (r.pattern, r.endpoint)) = b.flask_paths ∧
        ∀ r ∈ table, r.strict_slashes = false) := by
  refine ⟨?_, ?_, ?_, ?_⟩
  · intro bd regions hlk hacc hreg
    rw [hlk]
    simp only [select_backend, hacc, hreg]
  · intro bd regions hlk hacc hmiss hglob
    rw [hlk]
    simp only [select_backend, hacc, hmiss, hglob]
  · intro d hlk hglob
    rw [hlk]
    simp only [select_backend, hglob]
  · intro hsel
    refine ⟨b.flask_paths.map fun ph => ⟨ph.1, false, ph.2⟩, ?_, ?_, ?_⟩
    · unfold load_moto_routing_table
      rw [hsel]
      rfl
    · rw [List.map_map]
      generalize b.flask_paths = l
      induction l with
      | nil => rfl
      | cons x xs ih =>
        simp only [List.map_cons, Function.comp]
        rw [ih]
    · intro r hr
      rcases List.mem_map.mp hr with ⟨ph, _, hph⟩
      rw [← hph]

/-- Witness for C9: a two-level backend registry with both `"us-east-1"` and
`"global"` under the default account selects the `"us-east-1"` instance and
builds a two-rule table with slashes laxness, in registration order. -/
theorem load_moto_routing_table_selection_witness :
    select_backend (.backendDict
      [("000000000000",
        [("us-east-1", ⟨[("/queue", 1), ("/msg", 2)]⟩),
         ("global", (⟨[("/other", 3)]⟩ : MotoBackend Nat))])]) =
      some ⟨[("/queue", 1), ("/msg", 2)]⟩ ∧
    load_moto_routing_table (.backendDict
      [("000000000000",
        [("us-east-1", ⟨[("/queue", 1), ("/msg", 2)]⟩),
         ("global", (⟨[("/other", 3)]⟩ : MotoBackend Nat))])]) =
      some [⟨"/queue", false, 1⟩, ⟨"/msg", false, 2⟩] := by
  have h := load_moto_routing_table_selection (.backendDict
    [("000000000000",
      [("us-east-1", (⟨[("/queue", 1), ("/msg", 2)]⟩ : MotoBackend Nat)),
       ("global", ⟨[("/other", 3)]⟩)])])
    ⟨[("/queue", 1), ("/msg", 2)]⟩
  have hsel := h.1
    [("000000000000",
      [("us-east-1", ⟨[("/queue", 1), ("/msg", 2)]⟩),
       ("global", ⟨[("/other", 3)]⟩)])]
    [("us-east-1", ⟨[("/queue", 1), ("/msg", 2)]⟩),
     ("global", ⟨[("/other", 3)]⟩)]
    rfl rfl rfl
  exact ⟨hsel, rfl⟩

/-- Sequential semantics of the `@lru_cache()` on `get_moto_routing_table`:
the cache state maps service identifiers to built tables; a call for a cached
service returns the stored table unchanged, a call for an unseen service runs
`load_moto_routing_table` once and stores the result. Thread interleavings of
CPython's `lru_cache` are outside this embedding; this models the
call-sequence behaviour. -/
def get_moto_routing_table {H : Type}
    (backends : String → BackendLookup H)
    (cache : List (String × UrlMap String H)) (service : String) :
    Option (UrlMap String H) × List (String × UrlMap String H) :=
  match alget cache service with
  | some table => (some table, cache)
  | none =>
    match load_moto_routing_table (backends service) with
    | none => (none, cache)
    | some table => (some table, cache ++ [(service, table)])

/-- Supporting fact for the cache model (sequential part of the memoization
contract): once a service's table is in the cache, a further call returns the
stored table and leaves the cache unchanged — the builder is not re-run — and
a first successful call stores exactly the built table. -/
theorem get_moto_routing_table_memoizes {H : Type}
    (backends : String → BackendLookup H)
    (cache : List (String × UrlMap String H)) (service : String) :
    (∀ table, alget cache service = some table →
      get_moto_routing_table backends cache service = (some table, cache)) ∧
    (∀ table, alget cache service = none →
      load_moto_routing_table (backends service) = some table →
      get_moto_routing_table backends cache service =
        (some table, cache ++ [(service, table)]) ∧
      alget (cache ++ [(service, table)]) service = some table) := by
  constructor
  · intro table hc
    unfold get_moto_routing_table
    rw [hc]
  · intro table hc hload
    constructor
    · unfold get_moto_routing_table
      rw [hc, hload]
    · unfold alget at hc ⊢
      induction cache with
      | nil => simp [List.find?]
      | cons p ps ih =>
        cases hp : p.1 == service with
        | true => simp only [List.find?, hp] at hc; exact Option.noConfusion hc
        | false =>
          simp only [List.find?, hp, List.cons_append] at hc ⊢
          exact ih hc

/-- Witness for the cache-memoization fact: one build, then a hit. -/
theorem get_moto_routing_table_memoizes_witness :
    get_moto_routing_table (fun _ => .flat [("global", ⟨[("/p", 5)]⟩)])
      [] "sqs" = (some [⟨"/p", false, 5⟩], [("sqs", [⟨"/p", false, 5⟩])]) ∧
    get_moto_routing_table (fun _ => (.flat [("global", ⟨[("/p", 5)]⟩)] :
        BackendLookup Nat))
      [("sqs", [⟨"/p", false, 5⟩])] "sqs" =
      (some [⟨"/p", false, 5⟩], [("sqs", [⟨"/p", false, 5⟩])]) := by
  have h1 := get_moto_routing_table_memoizes
    (fun _ => (.flat [("global", ⟨[("/p", 5)]⟩)] : BackendLookup Nat)) [] "sqs"
  have h2 := get_moto_routing_table_memoizes
    (fun _ => (.flat [("global", ⟨[("/p", 5)]⟩)] : BackendLookup Nat))
    [("sqs", [⟨"/p", false, 5⟩])] "sqs"
  exact ⟨(h1.2 [⟨"/p", false, 5⟩] rfl rfl).1, h2.1 [⟨"/p", false, 5⟩] rfl⟩

/-- Witness for C5: a single-rule table whose pattern matches nothing still
resolves every path — including one the pattern would reject — to its
handler. -/
theorem get_dispatcher_single_witness :
    get_dispatcher (fun _ _ => false)
      (fun _ => [⟨"/only", false, 7⟩]) "svc" "###malformed" = some 7 := by
  have h := get_dispatcher_single (fun _ _ => false)
    (fun _ => [⟨"/only", false, (7 : Nat)⟩]) "svc" "###malformed" (by decide)
  exact h

end Moto
